import Mathlib

/-!
Shallow embedding of the wagtailmenus menu-resolution engine
(`wagtailmenus/models/menus.py` and `wagtailmenus/models.py`).

Modelling conventions:

* A wagtail `Page` row is a structure carrying the columns the engine
  reads: `id`, the materialized `path` (modelled as a list of fixed-width
  segments, so `path[:-steplen]` becomes `List.dropLast`), the stored
  `depth` column, and the `live` / `expired` / `show_in_menus` flags.
* A Django `QuerySet` is a `List Page` drawn from an explicit database
  list `db : List Page`; `filter` is `List.filter`, queryset union `|`
  combines the filter conditions with `or`, intersection `&` combines
  them with `and`, and `.specific()` maps an abstract resolution
  function `specific : Page → Page` over the rows.
* The `menus_modify_base_page_queryset` hooks are modelled as one extra
  filter predicate `hook : Page → Bool` composed into the base queryset.
* A `MenuItem` row carries the `link_page_id` column (`Option Nat`), the
  lazily attached `link_page` object (`Option Page`), `allow_subnav`,
  `sort_order`, and the `link_url` / `link_text` char columns (Django
  `CharField` truthiness: the empty string is falsy, so `Option` is not
  needed for them).
-/

namespace Wagtailmenus

/-- Constants from `wagtailmenus.app_settings` (`USE_SPECIFIC_CHOICES`);
the numeric values 0/1/2/3 are pinned by the repository's own test suite
(`test_mainmenu_class.py` sets and compares these integers directly). -/
def USE_SPECIFIC_OFF : Nat := 0

/-- AUTO specificity value (1). -/
def USE_SPECIFIC_AUTO : Nat := 1

/-- TOP_LEVEL specificity value (2). -/
def USE_SPECIFIC_TOP_LEVEL : Nat := 2

/-- ALWAYS specificity value (3). -/
def USE_SPECIFIC_ALWAYS : Nat := 3

/-- A wagtail `Page` row, restricted to the columns the menu engine
reads. `path` is the materialized path as a list of segments (one
segment per tree level, so dropping the last segment of a page's path
yields its parent's path, mirroring `page.path[:-page.steplen]`). -/
structure Page where
  id : Nat
  path : List Nat
  depth : Nat
  live : Bool
  expired : Bool
  show_in_menus : Bool
deriving DecidableEq

/-- A `MenuItem` row (`wagtailmenus/models.py`, class `MenuItem` plus the
`sort_order` added by `Orderable` and the concrete `allow_subnav`
field). `link_page_id` is the stored foreign-key column; `link_page` is
the page object the engine attaches in `top_level_items`. -/
structure MenuItem where
  link_page_id : Option Nat
  link_page : Option Page
  link_url : String
  link_text : String
  allow_subnav : Bool
  sort_order : Nat
deriving DecidableEq

/-- `Menu.get_base_page_queryset` filter condition:
`live=True, expired=False, show_in_menus=True`, plus the hook-supplied
extension modelled as the predicate `hook`. -/
def base_page_pred (hook : Page → Bool) (p : Page) : Bool :=
  p.live && !p.expired && p.show_in_menus && hook p

/-- `Menu.get_base_page_queryset`: the database rows passing
`base_page_pred`. -/
def get_base_page_queryset (db : List Page) (hook : Page → Bool) : List Page :=
  db.filter (base_page_pred hook)

/-- Lookup in the evaluated dictionary `pages_dict = {p.id: p for p in
top_level_pages}`: a Python dict comprehension keeps the last row for a
duplicated key, so the lookup searches the reversed list. -/
def pages_dict_get (pages : List Page) (i : Nat) : Option Page :=
  pages.reverse.find? (fun p => p.id == i)

/-- The `top_level_pages` queryset built inside
`MenuWithMenuItems.top_level_items`: base-filtered pages whose `id` is
among the items' `link_page_id` values, passed through `specific()` when
`use_specific >= USE_SPECIFIC_TOP_LEVEL`. -/
def resolved_top_level_pages (db : List Page) (hook : Page → Bool)
    (menu_items : List MenuItem) (use_specific : Nat)
    (specific : Page → Page) : List Page :=
  let ids := menu_items.filterMap (fun it => it.link_page_id)
  let top_level_pages :=
    (get_base_page_queryset db hook).filter (fun p => ids.contains p.id)
  if USE_SPECIFIC_TOP_LEVEL ≤ use_specific then
    top_level_pages.map specific
  else
    top_level_pages

/-- One iteration of the `for item in menu_items` loop in
`MenuWithMenuItems.top_level_items`: an item with no `link_page_id` is
appended as-is; an item whose page id is missing from `pages_dict` is
skipped; otherwise the resolved page is attached as `link_page` and the
item appended. -/
def top_level_step (resolved : List Page) (acc : List MenuItem)
    (item : MenuItem) : List MenuItem :=
  match item.link_page_id with
  | none => acc ++ [item]
  | some pid =>
    match pages_dict_get resolved pid with
    | none => acc
    | some p => acc ++ [{ item with link_page := some p }]

/-- `MenuWithMenuItems.top_level_items` (the `cached_property` body):
`menu_items` stands for the evaluated
`get_base_menuitem_queryset()` result, already ordered by the persisted
`sort_order`. -/
def top_level_items (db : List Page) (hook : Page → Bool)
    (menu_items : List MenuItem) (use_specific : Nat)
    (specific : Page → Page) : List MenuItem :=
  menu_items.foldl
    (top_level_step (resolved_top_level_pages db hook menu_items use_specific specific))
    []

/-- The spec's per-item reading of the `top_level_items` loop ("if it
has no linked page keep it as-is, if linked page id is absent from the
resolved map DROP the item, otherwise attach the resolved page object"),
as an `Option`-returning resolution function. -/
def resolve_item_for_display (resolved : List Page) (item : MenuItem) :
    Option MenuItem :=
  match item.link_page_id with
  | none => some item
  | some pid =>
    match pages_dict_get resolved pid with
    | none => none
    | some p => some { item with link_page := some p }

/-- The branch condition accumulated by the `for item in
self.top_level_items` loop of `MenuWithMenuItems.get_pages_for_display`:
for an item with a `link_page_id` whose attached page is `pg`, the
queryset `Page.objects.filter(depth__gt=page_depth,
depth__lt=page_depth + self.max_levels,
path__startswith=item.link_page.path)` is unioned in only when
`item.allow_subnav and page_depth >= SECTION_ROOT_DEPTH`. Items without
a `link_page_id` contribute nothing. -/
def item_branch_cond (max_levels section_root_depth : Nat)
    (item : MenuItem) (p : Page) : Bool :=
  match item.link_page_id with
  | none => false
  | some _ =>
    match item.link_page with
    | none => false
    | some pg =>
      item.allow_subnav && decide (section_root_depth ≤ pg.depth) &&
        decide (pg.depth < p.depth) &&
        decide (p.depth < pg.depth + max_levels) &&
        pg.path.isPrefixOf p.path

/-- `MenuWithMenuItems.get_pages_for_display`: empty when
`max_levels == 1`; otherwise the union over top-level items of their
descendant branches, intersected (`&`) with the base page queryset, with
`specific()` applied exactly when `use_specific == USE_SPECIFIC_ALWAYS`.
`tli` stands for `self.top_level_items`; `section_root_depth` is the
`SECTION_ROOT_DEPTH` app setting. -/
def mm_get_pages_for_display (db : List Page) (hook : Page → Bool)
    (tli : List MenuItem) (max_levels use_specific section_root_depth : Nat)
    (specific : Page → Page) : List Page :=
  if max_levels = 1 then
    []
  else
    let all_pages := db.filter (fun p =>
      tli.any (fun item => item_branch_cond max_levels section_root_depth item p) &&
        base_page_pred hook p)
    if use_specific = USE_SPECIFIC_ALWAYS then all_pages.map specific
    else all_pages

/-- `MenuFromRootPage.get_pages_for_display`: base-filtered pages with
`depth__gt=self.root_page.depth`,
`depth__lte=self.root_page.depth + self.max_levels` and
`path__startswith=self.root_page.path`, with `specific()` applied
exactly when `use_specific == USE_SPECIFIC_ALWAYS`. -/
def rootpage_get_pages_for_display (db : List Page) (hook : Page → Bool)
    (root_page : Page) (max_levels use_specific : Nat)
    (specific : Page → Page) : List Page :=
  let pages := (get_base_page_queryset db hook).filter (fun p =>
    decide (root_page.depth < p.depth) &&
      decide (p.depth ≤ root_page.depth + max_levels) &&
      root_page.path.isPrefixOf p.path)
  if use_specific = USE_SPECIFIC_ALWAYS then pages.map specific
  else pages

/-- The children index of `Menu.page_children_dict`: an association list
from a parent-path key to the ordered list of its child pages, mirroring
the insertion-ordered Python `defaultdict(list)`. -/
abbrev ChildrenDict := List (List Nat × List Page)

/-- Plain (non-defaulting) dictionary lookup, as used by `.get` and the
`in` operator: never inserts. -/
def dict_lookup (d : ChildrenDict) (k : List Nat) : Option (List Page) :=
  match d.find? (fun e => e.1 == k) with
  | some e => some e.2
  | none => none

/-- `children_dict[key].append(page)` on a `defaultdict(list)`: appends
to the existing entry, or creates a new entry (at the end, matching
dict insertion order) holding just `page`. -/
def dict_append_child (d : ChildrenDict) (k : List Nat) (p : Page) :
    ChildrenDict :=
  match d with
  | [] => [(k, [p])]
  | e :: rest =>
    if e.1 = k then (e.1, e.2 ++ [p]) :: rest
    else e :: dict_append_child rest k p

/-- `Menu.page_children_dict` (the `cached_property` body): one pass
over `pages_for_display`, keying each page under
`page.path[:-page.steplen]`, i.e. its parent's path. -/
def page_children_dict (pages_for_display : List Page) : ChildrenDict :=
  pages_for_display.foldl
    (fun d page => dict_append_child d page.path.dropLast page) []

/-- `self.page_children_dict.get(page.path, [])`: the Python `dict.get`
with a default returns the stored list or the default, and never
mutates; the dictionary is threaded through explicitly so the absence of
mutation is part of the statement. -/
def dict_get_default (d : ChildrenDict) (k : List Nat)
    (default : List Page) : List Page × ChildrenDict :=
  match dict_lookup d k with
  | some v => (v, d)
  | none => (default, d)

/-- `Menu.get_children_for_page`: look up `page.path` in the children
index with default `[]`. -/
def menu_get_children_for_page (pages_for_display : List Page)
    (page : Page) : List Page :=
  (dict_get_default (page_children_dict pages_for_display) page.path []).1

/-- `Menu.page_has_children`: membership test `page.path in
self.page_children_dict` (no default-insertion, no mutation). -/
def menu_page_has_children (pages_for_display : List Page)
    (page : Page) : Bool :=
  (dict_lookup (page_children_dict pages_for_display) page.path).isSome

/-- `Menu.get_children_for_page` as inherited by `MenuWithMenuItems`:
the index is built over the model-backed `pages_for_display`. -/
def mm_get_children_for_page (db : List Page) (hook : Page → Bool)
    (tli : List MenuItem) (max_levels use_specific section_root_depth : Nat)
    (specific : Page → Page) (page : Page) : List Page :=
  menu_get_children_for_page
    (mm_get_pages_for_display db hook tli max_levels use_specific
      section_root_depth specific) page

/-- `MenuFromRootPage.get_children_for_page`: when `max_levels == 1` the
flat `pages_for_display` list is returned directly (skipping the index);
otherwise the inherited index lookup runs. -/
def rootpage_get_children_for_page (db : List Page) (hook : Page → Bool)
    (root_page : Page) (max_levels use_specific : Nat)
    (specific : Page → Page) (page : Page) : List Page :=
  if max_levels = 1 then
    rootpage_get_pages_for_display db hook root_page max_levels use_specific
      specific
  else
    menu_get_children_for_page
      (rootpage_get_pages_for_display db hook root_page max_levels
        use_specific specific) page

/-- The memoization slots backing the three `cached_property`
attributes of a menu instance (`none` = not yet computed / deleted). -/
structure MenuCache where
  pages_for_display : Option (List Page)
  page_children_dict : Option ChildrenDict
  top_level_items : Option (List MenuItem)
deriving DecidableEq

/-- The mutable per-instance state a model-backed menu carries through
its setters: the two option attributes plus the memoization slots. -/
structure MenuState where
  max_levels : Nat
  use_specific : Nat
  cache : MenuCache
deriving DecidableEq

/-- `Menu.clear_page_cache`: `del self.pages_for_display` and
`del self.page_children_dict` (each swallowing `AttributeError`), leaving
`top_level_items` untouched. -/
def clear_page_cache (c : MenuCache) : MenuCache :=
  { pages_for_display := none
    page_children_dict := none
    top_level_items := c.top_level_items }

/-- `Menu.set_max_levels`: on a changed value, store it and
`clear_page_cache()`; on an unchanged value, do nothing. -/
def set_max_levels (s : MenuState) (max_levels : Nat) : MenuState :=
  if s.max_levels ≠ max_levels then
    { max_levels := max_levels
      use_specific := s.use_specific
      cache := clear_page_cache s.cache }
  else s

/-- `Menu.set_use_specific`: on a changed value, when the new value is
at least `USE_SPECIFIC_TOP_LEVEL` while the old one was below it, run
`clear_page_cache()` and `del self.top_level_items`; then store the new
value. On an unchanged value, do nothing. -/
def set_use_specific (s : MenuState) (use_specific : Nat) : MenuState :=
  if s.use_specific ≠ use_specific then
    if USE_SPECIFIC_TOP_LEVEL ≤ use_specific ∧
        s.use_specific < USE_SPECIFIC_TOP_LEVEL then
      { max_levels := s.max_levels
        use_specific := use_specific
        cache := { pages_for_display := none
                   page_children_dict := none
                   top_level_items := none } }
    else
      { max_levels := s.max_levels
        use_specific := use_specific
        cache := s.cache }
  else s

/-- Reading the `top_level_items` `cached_property`: a cache hit returns
the memoized list untouched; a miss runs `compute` on the current state
and stores the result. -/
def read_top_level_items (s : MenuState)
    (compute : MenuState → List MenuItem) : List MenuItem × MenuState :=
  match s.cache.top_level_items with
  | some v => (v, s)
  | none =>
    let v := compute s
    (v, { max_levels := s.max_levels
          use_specific := s.use_specific
          cache := { pages_for_display := s.cache.pages_for_display
                     page_children_dict := s.cache.page_children_dict
                     top_level_items := some v } })

/-- Reading the `pages_for_display` `cached_property`, analogously. -/
def read_pages_for_display (s : MenuState)
    (compute : MenuState → List Page) : List Page × MenuState :=
  match s.cache.pages_for_display with
  | some v => (v, s)
  | none =>
    let v := compute s
    (v, { max_levels := s.max_levels
          use_specific := s.use_specific
          cache := { pages_for_display := some v
                     page_children_dict := s.cache.page_children_dict
                     top_level_items := s.cache.top_level_items } })

/-- Outcome of `MenuItem.clean` (`wagtailmenus/models.py`): either the
checks pass, or a `ValidationError` keyed by a field name, or a
`ValidationError` carrying only a message (no field). -/
inductive CleanResult where
  | ok : CleanResult
  | fieldError (field : String) (message : String) : CleanResult
  | nonFieldError (message : String) : CleanResult
deriving DecidableEq

/-- `MenuItem.clean`: the three checks in source order. Django
`CharField` truthiness makes `link_url` / `link_text` falsy exactly when
empty; `self.link_page` is truthy exactly when the foreign key is set,
which the embedding reads from the `link_page_id` column. -/
def menuitem_clean (item : MenuItem) : CleanResult :=
  if item.link_url ≠ "" ∧ item.link_text = "" then
    CleanResult.fieldError "link_text"
      "This must be set if you are linking to a custom URL."
  else if item.link_url = "" ∧ item.link_page_id = none then
    CleanResult.fieldError "link_url"
      "This must be set if you are not linking to a page."
  else if item.link_url ≠ "" ∧ item.link_page_id ≠ none then
    CleanResult.nonFieldError
      "You cannot link to both a page and URL. Please review your link and clear any unwanted values."
  else
    CleanResult.ok

/-- The fresh `MenuItem` built by each loop iteration of
`MenuWithMenuItems.add_menu_items_for_pages`:
`item_class(menu=self, link_page=p, sort_order=i,
allow_subnav=allow_subnav)`. -/
def new_item_for_page (p : Page) (i : Nat) (allow_subnav : Bool) :
    MenuItem :=
  { link_page_id := some p.id
    link_page := some p
    link_url := ""
    link_text := ""
    allow_subnav := allow_subnav
    sort_order := i }

/-- The `item_list` built by the loop, with the counter `i` threaded
through (`i` starts at `item_manager.count()` and increments once per
page). -/
def new_items_from (i : Nat) (pages : List Page) (allow_subnav : Bool) :
    List MenuItem :=
  match pages with
  | [] => []
  | p :: rest =>
    new_item_for_page p i allow_subnav :: new_items_from (i + 1) rest allow_subnav

/-- `MenuWithMenuItems.add_menu_items_for_pages`: the menu's item set
after `bulk_create(item_list)` — the pre-existing items followed by the
newly built ones, whose `sort_order` counter starts at the pre-call item
count. -/
def add_menu_items_for_pages (existing : List MenuItem)
    (pages : List Page) (allow_subnav : Bool) : List MenuItem :=
  existing ++ new_items_from existing.length pages allow_subnav

/-- A wagtail `Site` row, restricted to what
`AbstractFlatMenu.get_for_site` reads. -/
structure Site where
  id : Nat
  is_default_site : Bool
deriving DecidableEq

/-- A persisted `FlatMenu` row, restricted to its lookup key (the
`handle` slug and the site foreign key). -/
structure FlatMenuRec where
  handle : String
  site : Site
deriving DecidableEq

/-- `AbstractFlatMenu.get_for_site`: `.first()` on the
`handle__exact=handle, site=site` filter (`None` when empty); when that
is `None`, the fallback flag is set and the given site is not the
default site, `.first()` on the `handle__exact=handle,
site__is_default_site=True` filter instead. `menus` is the menu table;
`.first()` over an unordered model is modelled as the first row in table
order. -/
def flatmenu_get_for_site (menus : List FlatMenuRec) (handle : String)
    (site : Site) (fall_back_to_default_site_menus : Bool) :
    Option FlatMenuRec :=
  let menu := menus.find? (fun m => m.handle == handle && m.site.id == site.id)
  if menu.isNone && fall_back_to_default_site_menus && !site.is_default_site then
    menus.find? (fun m => m.handle == handle && m.site.is_default_site)
  else menu

/-! Concrete sample data, used to instantiate the theorems below on
explicit inputs (a small page tree with one root, two sections, one
grandchild and one page hidden from menus). -/

/-- Trivial hook predicate: no hook registered, queryset unchanged. -/
def ex_hook : Page → Bool := fun _ => true

/-- Identity `specific()` resolution (a page whose specific type is the
base type). -/
def ex_specific : Page → Page := fun p => p

/-- Site root page. -/
def pg_root : Page := ⟨1, [1], 1, true, false, true⟩

/-- First section page ("home"). -/
def pg_home : Page := ⟨2, [1, 1], 2, true, false, true⟩

/-- Second section page ("about"). -/
def pg_about : Page := ⟨3, [1, 2], 2, true, false, true⟩

/-- Child of the "about" page. -/
def pg_team : Page := ⟨4, [1, 2, 1], 3, true, false, true⟩

/-- A page excluded from menus (`show_in_menus=False`). -/
def pg_hidden : Page := ⟨5, [1, 3], 2, true, false, false⟩

/-- The sample page table. -/
def ex_db : List Page := [pg_root, pg_home, pg_about, pg_team, pg_hidden]

/-- Menu item linking the "home" page. -/
def it_home : MenuItem := ⟨some 2, none, "", "Home", true, 0⟩

/-- Menu item linking a custom URL (no page). -/
def it_url : MenuItem := ⟨none, none, "/contact/", "Contact", false, 1⟩

/-- Menu item linking the hidden page (dropped by the base filter). -/
def it_hidden : MenuItem := ⟨some 5, none, "", "", true, 2⟩

/-- Menu item linking the "about" page. -/
def it_about : MenuItem := ⟨some 3, none, "", "", true, 3⟩

/-- The sample menu item rows, in `sort_order`. -/
def ex_items : List MenuItem := [it_home, it_url, it_hidden, it_about]

/-- The "about" item with its page attached, as `top_level_items`
produces it. -/
def it_about_r : MenuItem := ⟨some 3, some pg_about, "", "", true, 3⟩

/-- A small resolved top-level item list. -/
def ex_tli : List MenuItem := [it_about_r]

/-- A menu item with both a page and a custom URL set (ill-formed). -/
def it_both : MenuItem := ⟨some 6, none, "test/", "Test", false, 0⟩

/-- A sample populated cache. -/
def ex_cache : MenuCache :=
  ⟨some [pg_about], some (page_children_dict [pg_team]), some [it_about_r]⟩

/-- A sample menu state: `max_levels=2`, `use_specific=ALWAYS`, caches
populated. -/
def ex_state : MenuState := ⟨2, USE_SPECIFIC_ALWAYS, ex_cache⟩

/-- The default site. -/
def site_default : Site := ⟨1, true⟩

/-- A secondary, non-default site. -/
def site_two : Site := ⟨2, false⟩

/-- A flat menu persisted for the default site. -/
def fm_contact : FlatMenuRec := ⟨"contact", site_default⟩

/-- The sample flat menu table. -/
def ex_menus : List FlatMenuRec := [fm_contact]

/-! Theorems. -/

/-- One loop iteration of `top_level_items` appends exactly the result
of the per-item resolution. -/
theorem top_level_step_eq (resolved : List Page) (acc : List MenuItem)
    (item : MenuItem) :
    top_level_step resolved acc item =
      acc ++ (resolve_item_for_display resolved item).toList := by
  unfold top_level_step resolve_item_for_display
  cases h1 : item.link_page_id with
  | none => simp
  | some pid =>
    cases h2 : pages_dict_get resolved pid with
    | none => simp [h2]
    | some p => simp [h2]

/-- An item surviving per-item resolution keeps its `sort_order`. -/
theorem resolve_item_sort_eq (resolved : List Page) (a b : MenuItem)
    (hab : resolve_item_for_display resolved a = some b) :
    b.sort_order = a.sort_order := by
  unfold resolve_item_for_display at hab
  cases h1 : a.link_page_id with
  | none => rw [h1] at hab; cases hab; rfl
  | some pid =>
    rw [h1] at hab
    cases h2 : pages_dict_get resolved pid with
    | none => simp [h2] at hab
    | some p =>
      simp [h2] at hab
      rw [← hab]

/-- The `top_level_items` loop, started from any accumulator, appends
exactly the items surviving per-item resolution. -/
theorem foldl_top_level_step (resolved : List Page) :
    ∀ (items : List MenuItem) (acc : List MenuItem),
      items.foldl (top_level_step resolved) acc =
        acc ++ items.filterMap (resolve_item_for_display resolved) := by
  intro items
  induction items with
  | nil => intro acc; simp
  | cons item rest ih =>
    intro acc
    rw [List.foldl_cons, top_level_step_eq, ih, List.filterMap_cons]
    cases resolve_item_for_display resolved item with
    | none => simp
    | some b => simp

/-- Mapping `g` over a `filterMap` whose function preserves `g` yields a
sublist of mapping `g` over the input. -/
theorem map_filterMap_sublist {α γ : Type} (f : α → Option α) (g : α → γ)
    (hg : ∀ a b, f a = some b → g b = g a) :
    ∀ l : List α, List.Sublist ((l.filterMap f).map g) (l.map g) := by
  intro l
  induction l with
  | nil => simp
  | cons a rest ih =>
    simp only [List.filterMap_cons, List.map_cons]
    cases hf : f a with
    | none => exact ih.cons (g a)
    | some b =>
      simp only [List.map_cons, hg a b hf]
      exact ih.cons₂ (g a)

/-- C1: `MenuWithMenuItems.top_level_items` equals the per-item
resolution of the ordered menu items against the id-keyed map of
`resolved_top_level_pages` (the base-filtered pages whose ids appear
among the items' `link_page_id` values, made specific when
`use_specific >= USE_SPECIFIC_TOP_LEVEL`): items with no linked page
are kept as-is, items whose page id is absent from the map are dropped,
the rest get the resolved page attached as `link_page`; and the output
preserves the input (persisted `sort_order`) order, its `sort_order`
column being a sublist of the input's. -/
theorem top_level_items_correct (db : List Page) (hook : Page → Bool)
    (menu_items : List MenuItem) (use_specific : Nat)
    (specific : Page → Page) :
    top_level_items db hook menu_items use_specific specific =
      menu_items.filterMap
        (resolve_item_for_display
          (resolved_top_level_pages db hook menu_items use_specific specific)) ∧
    List.Sublist
      ((top_level_items db hook menu_items use_specific specific).map
        (fun it => it.sort_order))
      (menu_items.map (fun it => it.sort_order)) := by
  have hmain :
      top_level_items db hook menu_items use_specific specific =
        menu_items.filterMap
          (resolve_item_for_display
            (resolved_top_level_pages db hook menu_items use_specific specific)) := by
    unfold top_level_items
    rw [foldl_top_level_step]
    simp
  refine ⟨hmain, ?_⟩
  rw [hmain]
  apply map_filterMap_sublist
  intro a b hab
  exact resolve_item_sort_eq _ a b hab

/-- Unfolding of the branch condition into its arithmetic reading. -/
theorem item_branch_cond_iff (max_levels section_root_depth : Nat)
    (item : MenuItem) (p : Page) :
    item_branch_cond max_levels section_root_depth item p = true ↔
      ∃ pg : Page, item.link_page_id ≠ none ∧ item.link_page = some pg ∧
        item.allow_subnav = true ∧ section_root_depth ≤ pg.depth ∧
        pg.depth < p.depth ∧ p.depth < pg.depth + max_levels ∧
        pg.path.isPrefixOf p.path = true := by
  unfold item_branch_cond
  cases h1 : item.link_page_id with
  | none => simp [h1]
  | some pid =>
    cases h2 : item.link_page with
    | none => simp [h1, h2]
    | some pg =>
      simp only [h1, h2, Bool.and_eq_true, decide_eq_true_eq,
        Option.some.injEq, ne_eq, reduceCtorEq, not_false_iff, true_and]
      constructor
      · rintro ⟨⟨⟨⟨ha, hs⟩, hd1⟩, hd2⟩, hp⟩
        exact ⟨pg, rfl, ha, hs, hd1, hd2, hp⟩
      · rintro ⟨pg', hpg, ha, hs, hd1, hd2, hp⟩
        cases hpg
        exact ⟨⟨⟨⟨ha, hs⟩, hd1⟩, hd2⟩, hp⟩

/-- An item with `allow_subnav=False` has an everywhere-false branch
condition. -/
theorem item_branch_cond_false_of_no_subnav (max_levels srd : Nat)
    (item : MenuItem) (p : Page) (h : item.allow_subnav = false) :
    item_branch_cond max_levels srd item p = false := by
  unfold item_branch_cond
  cases h1 : item.link_page_id with
  | none => rfl
  | some pid =>
    cases h2 : item.link_page with
    | none => rfl
    | some pg => simp [h]

/-- Dropping `allow_subnav=False` items does not change the accumulated
branch condition. -/
theorem any_branch_cond_filter (max_levels srd : Nat)
    (tli : List MenuItem) (p : Page) :
    tli.any (fun item => item_branch_cond max_levels srd item p) =
      (tli.filter (fun it => it.allow_subnav)).any
        (fun item => item_branch_cond max_levels srd item p) := by
  induction tli with
  | nil => rfl
  | cons item rest ih =>
    cases h : item.allow_subnav with
    | false =>
      simp only [List.any_cons, List.filter_cons, h]
      rw [item_branch_cond_false_of_no_subnav max_levels srd item p h]
      simp [ih]
    | true =>
      simp only [List.any_cons, List.filter_cons, h]
      simp [ih]

/-- C2: for a model-backed menu with `max_levels > 1`,
`get_pages_for_display` holds exactly the images (under `specific()`
when and only when `use_specific = USE_SPECIFIC_ALWAYS`, identity
otherwise) of the database pages that pass the base page filter (with
hooks) and fall in some eligible top-level item's branch: the item has a
linked page `pg` with `allow_subnav` true and `depth` at least the
section root depth, and the page's depth lies strictly between
`pg.depth` and `pg.depth + max_levels` with `pg.path` a prefix of its
path. Items with `allow_subnav=False` contribute nothing: filtering them
out leaves the result unchanged. -/
theorem mm_get_pages_for_display_correct (db : List Page)
    (hook : Page → Bool) (tli : List MenuItem)
    (max_levels use_specific srd : Nat) (specific : Page → Page)
    (hml : 1 < max_levels) :
    (∀ p : Page,
      p ∈ mm_get_pages_for_display db hook tli max_levels use_specific srd
          specific ↔
        ∃ q : Page, q ∈ db ∧ base_page_pred hook q = true ∧
          (∃ item : MenuItem, item ∈ tli ∧ ∃ pg : Page,
            item.link_page_id ≠ none ∧ item.link_page = some pg ∧
            item.allow_subnav = true ∧ srd ≤ pg.depth ∧
            pg.depth < q.depth ∧ q.depth < pg.depth + max_levels ∧
            pg.path.isPrefixOf q.path = true) ∧
          p = (if use_specific = USE_SPECIFIC_ALWAYS then specific q else q)) ∧
    mm_get_pages_for_display db hook tli max_levels use_specific srd
        specific =
      mm_get_pages_for_display db hook
        (tli.filter (fun it => it.allow_subnav)) max_levels use_specific srd
        specific := by
  have hne : ¬ max_levels = 1 := by omega
  constructor
  · intro p
    unfold mm_get_pages_for_display
    rw [if_neg hne]
    by_cases hus : use_specific = USE_SPECIFIC_ALWAYS
    · simp only [if_pos hus, List.mem_map, List.mem_filter,
        Bool.and_eq_true, List.any_eq_true, item_branch_cond_iff]
      constructor
      · rintro ⟨q, ⟨hqdb, ⟨item, hitem, pg, hcond⟩, hbase⟩, hpq⟩
        exact ⟨q, hqdb, hbase, ⟨item, hitem, pg, hcond⟩, hpq.symm⟩
      · rintro ⟨q, hqdb, hbase, ⟨item, hitem, pg, hcond⟩, hpq⟩
        exact ⟨q, ⟨hqdb, ⟨item, hitem, pg, hcond⟩, hbase⟩, hpq.symm⟩
    · simp only [if_neg hus, List.mem_filter, Bool.and_eq_true,
        List.any_eq_true, item_branch_cond_iff]
      constructor
      · rintro ⟨hqdb, ⟨item, hitem, pg, hcond⟩, hbase⟩
        exact ⟨p, hqdb, hbase, ⟨item, hitem, pg, hcond⟩, rfl⟩
      · rintro ⟨q, hqdb, hbase, ⟨item, hitem, pg, hcond⟩, hpq⟩
        cases hpq
        exact ⟨hqdb, ⟨item, hitem, pg, hcond⟩, hbase⟩
  · unfold mm_get_pages_for_display
    rw [if_neg hne, if_neg hne]
    have hfe : (fun p =>
        tli.any (fun item => item_branch_cond max_levels srd item p) &&
          base_page_pred hook p) =
        (fun p =>
          (tli.filter (fun it => it.allow_subnav)).any
            (fun item => item_branch_cond max_levels srd item p) &&
            base_page_pred hook p) := by
      funext p
      rw [any_branch_cond_filter]
    rw [hfe]

/-- C2 witness: the characterization applied to the sample data with
`max_levels = 2`. -/
theorem mm_get_pages_for_display_correct_witness :
    mm_get_pages_for_display ex_db ex_hook ex_tli 2 USE_SPECIFIC_AUTO 2
        ex_specific =
      mm_get_pages_for_display ex_db ex_hook
        (ex_tli.filter (fun it => it.allow_subnav)) 2 USE_SPECIFIC_AUTO 2
        ex_specific :=
  (mm_get_pages_for_display_correct ex_db ex_hook ex_tli 2
    USE_SPECIFIC_AUTO 2 ex_specific (by decide)).2

/-- C3 counterexample: for the root-page-based menu classes
(`MenuFromRootPage`, i.e. section/children menus) the claim fails. With
`max_levels = 1` and the sample root page (which has two live,
menu-visible children), `pages_for_display` is the root's children —
not empty — and `get_children_for_page` returns that flat list directly
for any page, here the root page itself. -/
theorem rootpage_max_levels_one_counterexample :
    rootpage_get_pages_for_display ex_db ex_hook pg_root 1
        USE_SPECIFIC_AUTO ex_specific = [pg_home, pg_about] ∧
    rootpage_get_children_for_page ex_db ex_hook pg_root 1
        USE_SPECIFIC_AUTO ex_specific pg_root = [pg_home, pg_about] := by
  constructor
  · decide
  · decide

/-- C3 (amended to model-backed menus): for `MenuWithMenuItems`,
`max_levels = 1` makes `get_pages_for_display` empty and
`get_children_for_page` empty for every page; for root-page-based menus
with `max_levels = 1`, `get_children_for_page` instead returns the flat
`pages_for_display` list (the root's children) directly, for every
page. -/
theorem max_levels_one_amended (db : List Page) (hook : Page → Bool)
    (tli : List MenuItem) (use_specific srd : Nat)
    (specific : Page → Page) (page : Page) (dbr : List Page)
    (hookr : Page → Bool) (root : Page) (usr : Nat)
    (specificr : Page → Page) (pager : Page) :
    mm_get_pages_for_display db hook tli 1 use_specific srd specific = [] ∧
    mm_get_children_for_page db hook tli 1 use_specific srd specific
        page = [] ∧
    rootpage_get_children_for_page dbr hookr root 1 usr specificr pager =
      rootpage_get_pages_for_display dbr hookr root 1 usr specificr := by
  have h1 : mm_get_pages_for_display db hook tli 1 use_specific srd
      specific = [] := by
    unfold mm_get_pages_for_display
    rw [if_pos rfl]
  refine ⟨h1, ?_, ?_⟩
  · unfold mm_get_children_for_page
    rw [h1]
    rfl
  · unfold rootpage_get_children_for_page
    rw [if_pos rfl]

/-- C4: `set_use_specific` clears the memoized collections exactly when
the new value newly requires specific resolution, i.e. crosses upward
through the `USE_SPECIFIC_TOP_LEVEL` threshold
(`old < TOP_LEVEL <= new`); every other change — lowering included —
retains all already-computed cached values. -/
theorem set_use_specific_cache_iff (s : MenuState) (u : Nat) :
    (set_use_specific s u).cache =
      (if s.use_specific < USE_SPECIFIC_TOP_LEVEL ∧
          USE_SPECIFIC_TOP_LEVEL ≤ u then
        { pages_for_display := none
          page_children_dict := none
          top_level_items := none }
      else s.cache) := by
  unfold set_use_specific
  by_cases h1 : s.use_specific ≠ u
  · rw [if_pos h1]
    by_cases h2 : USE_SPECIFIC_TOP_LEVEL ≤ u ∧
        s.use_specific < USE_SPECIFIC_TOP_LEVEL
    · rw [if_pos h2, if_pos ⟨h2.2, h2.1⟩]
    · rw [if_neg h2, if_neg (fun h => h2 ⟨h.2, h.1⟩)]
  · rw [if_neg h1]
    have hu : s.use_specific = u := not_ne_iff.mp h1
    rw [if_neg (by omega : ¬ (s.use_specific < USE_SPECIFIC_TOP_LEVEL ∧
      USE_SPECIFIC_TOP_LEVEL ≤ u))]

/-- C5: crossing upward through the TOP_LEVEL threshold clears all
three memoized collections; while any strictly lower new value changes
only `use_specific` (the whole cache is kept), so subsequent reads of
`top_level_items` and `pages_for_display` return the already-computed
values, for every possible recomputation function — i.e. without
recomputation. -/
theorem set_use_specific_threshold_lowering (s : MenuState) (u : Nat) :
    (s.use_specific < USE_SPECIFIC_TOP_LEVEL →
      USE_SPECIFIC_TOP_LEVEL ≤ u →
      (set_use_specific s u).cache =
        { pages_for_display := none
          page_children_dict := none
          top_level_items := none }) ∧
    (u < s.use_specific →
      set_use_specific s u =
        { max_levels := s.max_levels
          use_specific := u
          cache := s.cache } ∧
      (∀ (v : List MenuItem) (compute : MenuState → List MenuItem),
        s.cache.top_level_items = some v →
        read_top_level_items (set_use_specific s u) compute =
          (v, set_use_specific s u)) ∧
      (∀ (v : List Page) (compute : MenuState → List Page),
        s.cache.pages_for_display = some v →
        read_pages_for_display (set_use_specific s u) compute =
          (v, set_use_specific s u))) := by
  constructor
  · intro hlow hup
    unfold set_use_specific
    rw [if_pos (by omega : s.use_specific ≠ u)]
    rw [if_pos ⟨hup, hlow⟩]
  · intro hdown
    have hstate : set_use_specific s u =
        { max_levels := s.max_levels
          use_specific := u
          cache := s.cache } := by
      unfold set_use_specific
      rw [if_pos (by omega : s.use_specific ≠ u)]
      rw [if_neg (by omega : ¬ (USE_SPECIFIC_TOP_LEVEL ≤ u ∧
        s.use_specific < USE_SPECIFIC_TOP_LEVEL))]
    refine ⟨hstate, ?_, ?_⟩
    · intro v compute hv
      unfold read_top_level_items
      rw [hstate]
      simp only [hv]
    · intro v compute hv
      unfold read_pages_for_display
      rw [hstate]
      simp only [hv]

/-- C5 witness: lowering `use_specific` from ALWAYS (3) to AUTO (1) on
a state with populated caches leaves the whole cache in place. -/
theorem set_use_specific_threshold_lowering_witness :
    set_use_specific ex_state USE_SPECIFIC_AUTO =
      { max_levels := ex_state.max_levels
        use_specific := USE_SPECIFIC_AUTO
        cache := ex_state.cache } :=
  ((set_use_specific_threshold_lowering ex_state USE_SPECIFIC_AUTO).2
    (by decide)).1

/-- C6: `set_max_levels` with a value different from the current one
stores the new value, clears `pages_for_display` and
`page_children_dict`, and leaves `top_level_items` and `use_specific`
unchanged. -/
theorem set_max_levels_frame (s : MenuState) (m : Nat)
    (h : m ≠ s.max_levels) :
    set_max_levels s m =
      { max_levels := m
        use_specific := s.use_specific
        cache := { pages_for_display := none
                   page_children_dict := none
                   top_level_items := s.cache.top_level_items } } := by
  unfold set_max_levels clear_page_cache
  rw [if_pos (Ne.symm h)]

/-- C6 witness: raising `max_levels` from 2 to 3 on the sample state. -/
theorem set_max_levels_frame_witness :
    set_max_levels ex_state 3 =
      { max_levels := 3
        use_specific := ex_state.use_specific
        cache := { pages_for_display := none
                   page_children_dict := none
                   top_level_items := ex_state.cache.top_level_items } } :=
  set_max_levels_frame ex_state 3 (by decide)

/-- C7 counterexample: an item with both a page and a custom URL does
fail `clean`, but with a message-only `ValidationError` carrying no
field key — not the structured field-level error the claim requires for
all three ill-formed configurations. -/
theorem menuitem_clean_both_counterexample :
    menuitem_clean it_both =
      CleanResult.nonFieldError
        "You cannot link to both a page and URL. Please review your link and clear any unwanted values." := by
  decide

/-- C7 (amended): a URL-based item with empty link text fails with a
field-level error on `link_text`; an item with neither target fails
with a field-level error on `link_url`; an item with both targets fails
with a non-field, message-only error; an item with exactly one target
(and link text when URL-based) passes. The checks run in source order,
so each case below carries the preconditions that put it past the
earlier checks. -/
theorem menuitem_clean_cases (item : MenuItem) :
    (item.link_url ≠ "" → item.link_text = "" →
      menuitem_clean item =
        CleanResult.fieldError "link_text"
          "This must be set if you are linking to a custom URL.") ∧
    (item.link_url = "" → item.link_page_id = none →
      menuitem_clean item =
        CleanResult.fieldError "link_url"
          "This must be set if you are not linking to a page.") ∧
    (item.link_url ≠ "" → item.link_text ≠ "" → item.link_page_id ≠ none →
      menuitem_clean item =
        CleanResult.nonFieldError
          "You cannot link to both a page and URL. Please review your link and clear any unwanted values.") ∧
    (item.link_page_id ≠ none → item.link_url = "" →
      menuitem_clean item = CleanResult.ok) ∧
    (item.link_page_id = none → item.link_url ≠ "" → item.link_text ≠ "" →
      menuitem_clean item = CleanResult.ok) := by
  unfold menuitem_clean
  refine ⟨?_, ?_, ?_, ?_, ?_⟩
  · intro h1 h2
    rw [if_pos ⟨h1, h2⟩]
  · intro h1 h2
    rw [if_neg (fun h => h.1 h1), if_pos ⟨h1, h2⟩]
  · intro h1 h2 h3
    rw [if_neg (fun h => h2 h.2), if_neg (fun h => h1 h.1),
      if_pos ⟨h1, h3⟩]
  · intro h1 h2
    rw [if_neg (fun h => h.1 h2), if_neg (fun h => h1 h.2),
      if_neg (fun h => h.1 h2)]
  · intro h1 h2 h3
    rw [if_neg (fun h => h3 h.2), if_neg (fun h => h2 h.1),
      if_neg (fun h => h.2 h1)]

/-- C7 witness: the page-only sample item passes `clean`, and the
URL-only sample item with link text passes `clean`. -/
theorem menuitem_clean_cases_witness :
    menuitem_clean it_home = CleanResult.ok ∧
    menuitem_clean it_url = CleanResult.ok :=
  ⟨(menuitem_clean_cases it_home).2.2.2.1 (by decide) (by decide),
   (menuitem_clean_cases it_url).2.2.2.2 (by decide) (by decide) (by decide)⟩

/-- The new-item list has one entry per input page. -/
theorem new_items_from_length (pages : List Page) (asn : Bool) :
    ∀ i : Nat, (new_items_from i pages asn).length = pages.length := by
  induction pages with
  | nil => intro i; rfl
  | cons p rest ih =>
    intro i
    simp only [new_items_from, List.length_cons, ih]

/-- The new items carry consecutive `sort_order` values from the start
counter. -/
theorem new_items_from_map_sort (pages : List Page) (asn : Bool) :
    ∀ i : Nat, (new_items_from i pages asn).map (fun it => it.sort_order) =
      List.range' i pages.length := by
  induction pages with
  | nil => intro i; rfl
  | cons p rest ih =>
    intro i
    simp only [new_items_from, List.length_cons, List.map_cons, ih,
      List.range'_succ]
    rfl

/-- The new items link the input pages in input order. -/
theorem new_items_from_map_page (pages : List Page) (asn : Bool) :
    ∀ i : Nat, (new_items_from i pages asn).map (fun it => it.link_page) =
      pages.map (fun p => some p) := by
  induction pages with
  | nil => intro i; rfl
  | cons p rest ih =>
    intro i
    simp only [new_items_from, List.map_cons, ih]
    rfl

/-- Every new item carries the supplied `allow_subnav`. -/
theorem new_items_from_allow (pages : List Page) (asn : Bool) :
    ∀ (i : Nat) (it : MenuItem), it ∈ new_items_from i pages asn →
      it.allow_subnav = asn := by
  induction pages with
  | nil => intro i it h; cases h
  | cons p rest ih =>
    intro i it h
    cases h with
    | head => rfl
    | tail _ htail => exact ih (i + 1) it htail

/-- C8: `add_menu_items_for_pages` over N pages appends exactly N new
items — one per input page, in input order, each linking its page and
carrying the supplied `allow_subnav` — whose `sort_order` values are
the consecutive integers starting at the pre-call item count, while the
pre-existing items are left unchanged in place. -/
theorem add_menu_items_for_pages_correct (existing : List MenuItem)
    (pages : List Page) (allow_subnav : Bool) :
    (add_menu_items_for_pages existing pages allow_subnav).length =
      existing.length + pages.length ∧
    (add_menu_items_for_pages existing pages allow_subnav).take
      existing.length = existing ∧
    ((add_menu_items_for_pages existing pages allow_subnav).drop
        existing.length).map (fun it => it.link_page) =
      pages.map (fun p => some p) ∧
    ((add_menu_items_for_pages existing pages allow_subnav).drop
        existing.length).map (fun it => it.sort_order) =
      List.range' existing.length pages.length ∧
    ∀ it ∈ (add_menu_items_for_pages existing pages allow_subnav).drop
        existing.length, it.allow_subnav = allow_subnav := by
  unfold add_menu_items_for_pages
  have hdrop : (existing ++
      new_items_from existing.length pages allow_subnav).drop
      existing.length = new_items_from existing.length pages allow_subnav :=
    List.drop_left existing _
  have htake : (existing ++
      new_items_from existing.length pages allow_subnav).take
      existing.length = existing :=
    List.take_left existing _
  refine ⟨?_, htake, ?_, ?_, ?_⟩
  · rw [List.length_append, new_items_from_length]
  · rw [hdrop, new_items_from_map_page]
  · rw [hdrop, new_items_from_map_sort]
  · rw [hdrop]
    intro it hit
    exact new_items_from_allow pages allow_subnav existing.length it hit

/-- No primary match exists iff no persisted menu has the handle for
the given site. -/
theorem find_primary_none_iff (menus : List FlatMenuRec) (handle : String)
    (site : Site) :
    (menus.find? (fun m => m.handle == handle && m.site.id == site.id) =
      none) ↔
      ∀ m ∈ menus, m.handle = handle → m.site.id ≠ site.id := by
  rw [List.find?_eq_none]
  constructor
  · intro h m hm he hid
    exact h m hm (by simp [he, hid])
  · intro h m hm hp
    simp only [Bool.and_eq_true, beq_iff_eq] at hp
    exact h m hm hp.1 hp.2

/-- No default-site match exists iff no persisted menu has the handle
on the default site. -/
theorem find_default_none_iff (menus : List FlatMenuRec) (handle : String) :
    (menus.find? (fun m => m.handle == handle && m.site.is_default_site) =
      none) ↔
      ∀ m ∈ menus, m.handle = handle → m.site.is_default_site = false := by
  rw [List.find?_eq_none]
  constructor
  · intro h m hm he
    cases hd : m.site.is_default_site with
    | false => rfl
    | true => exact absurd (by simp [he, hd]) (h m hm)
  · intro h m hm hp
    simp only [Bool.and_eq_true, beq_iff_eq] at hp
    rw [h m hm hp.1] at hp
    exact Bool.false_ne_true hp.2

/-- C9: `AbstractFlatMenu.get_for_site` returns the not-found signal
`none` exactly when no flat menu matches the handle for the given site
and no default-site fallback applies (i.e. the fallback flag is unset,
the site is itself the default site, or no menu with the handle exists
on the default site either); and the default-site fallback lookup is
attempted only when the flag is set and the site is not the default
site — otherwise the result is exactly the primary site lookup. The
function is total: an empty result is `none`, never an error. -/
theorem flatmenu_get_for_site_correct (menus : List FlatMenuRec)
    (handle : String) (site : Site) (fb : Bool) :
    (flatmenu_get_for_site menus handle site fb = none ↔
      ((∀ m ∈ menus, m.handle = handle → m.site.id ≠ site.id) ∧
       (fb = true → site.is_default_site = false →
         ∀ m ∈ menus, m.handle = handle →
           m.site.is_default_site = false))) ∧
    ((fb = false ∨ site.is_default_site = true) →
      flatmenu_get_for_site menus handle site fb =
        menus.find? (fun m => m.handle == handle && m.site.id == site.id)) := by
  cases hp : menus.find? (fun m => m.handle == handle && m.site.id == site.id) with
  | some m =>
    have hres : flatmenu_get_for_site menus handle site fb = some m := by
      unfold flatmenu_get_for_site
      rw [hp]
      simp
    have hpm : m.handle = handle ∧ m.site.id = site.id := by
      have := List.find?_some hp
      simpa using this
    have hmem : m ∈ menus := List.mem_of_find?_eq_some hp
    constructor
    · rw [hres]
      apply iff_of_false
      · simp
      · intro hr
        exact hr.1 m hmem hpm.1 hpm.2
    · intro _
      rw [hres]
  | none =>
    have hres : flatmenu_get_for_site menus handle site fb =
        (if fb && !site.is_default_site then
          menus.find? (fun m => m.handle == handle && m.site.is_default_site)
        else none) := by
      unfold flatmenu_get_for_site
      rw [hp]
      simp
    cases hfb : fb with
    | false =>
      rw [hfb] at hres
      simp only [Bool.false_and, reduceIte] at hres
      constructor
      · rw [hres]
        apply iff_of_true rfl
        refine ⟨(find_primary_none_iff menus handle site).mp hp, ?_⟩
        intro hcontra
        exact absurd hcontra (by simp)
      · intro _
        rw [hres]
        rfl
    | true =>
      cases hdef : site.is_default_site with
      | true =>
        rw [hfb, hdef] at hres
        simp only [Bool.not_true, Bool.and_false, reduceIte] at hres
        constructor
        · rw [hres]
          apply iff_of_true rfl
          refine ⟨(find_primary_none_iff menus handle site).mp hp, ?_⟩
          intro _ hcontra
          exact absurd hcontra (by decide)
        · intro _
          rw [hres]
          rfl
      | false =>
        rw [hfb, hdef] at hres
        simp only [Bool.not_false, Bool.and_true, reduceIte] at hres
        constructor
        · rw [hres, find_default_none_iff]
          constructor
          · intro h
            exact ⟨(find_primary_none_iff menus handle site).mp hp,
              fun _ _ => h⟩
          · intro hr
            exact hr.2 rfl rfl
        · intro hor
          cases hor with
          | inl h => exact absurd h (by decide)
          | inr h => exact absurd h (by decide)

/-- C9 witness: with the fallback flag unset, the lookup for the
non-default site is exactly the primary find (here empty). -/
theorem flatmenu_get_for_site_correct_witness :
    flatmenu_get_for_site ex_menus "contact" site_two false =
      ex_menus.find? (fun m => m.handle == "contact" && m.site.id == site_two.id) :=
  (flatmenu_get_for_site_correct ex_menus "contact" site_two false).2
    (Or.inl rfl)

/-- C10: on a page whose path is not a key of the children index, the
lookup helpers are total and side-effect free: `get_children_for_page`
returns the empty list via `dict.get` with default (never raising and
returning the dictionary unchanged, since `.get` never inserts), and
`page_has_children` is false. -/
theorem children_index_missing_key (pages : List Page) (page : Page)
    (h : dict_lookup (page_children_dict pages) page.path = none) :
    menu_get_children_for_page pages page = [] ∧
    menu_page_has_children pages page = false ∧
    dict_get_default (page_children_dict pages) page.path [] =
      ([], page_children_dict pages) := by
  unfold menu_get_children_for_page menu_page_has_children dict_get_default
  simp [h]

/-- C10 witness: the index over the single grandchild page keys only
the "about" path, so the "home" page's path is absent. -/
theorem children_index_missing_key_witness :
    menu_get_children_for_page [pg_team] pg_home = [] ∧
    menu_page_has_children [pg_team] pg_home = false ∧
    dict_get_default (page_children_dict [pg_team]) pg_home.path [] =
      ([], page_children_dict [pg_team]) :=
  children_index_missing_key [pg_team] pg_home (by decide)

end Wagtailmenus
